import Mathlib

/-!
Verification of the goodtables-pandas validation engine: a shallow embedding
of the field parsers (`parse.py`), the constraint and key checkers
(`check.py`) and the relevant slice of the orchestrator (`validate.py`),
together with theorems settling the specification's claims about them.

Conventions used throughout:
* a pandas `Series` of raw values is a `List (Option α)`, where `none` is a
  null (`NaN`) cell;
* pandas `unique()` / `drop_duplicates()` keep the first occurrence of each
  value, embedded here as `dedupFirst`;
* pandas `duplicated()` flags a row iff an earlier row is equal, with null
  cells comparing equal to each other, which `Option.decEq` gives directly;
* Python exceptions are modelled with `Except PyErr`.
-/

namespace GoodtablesPandas

/-- Python exceptions that the embedded code can raise. -/
inductive PyErr where
  | typeError
  | keyError (k : String)
  | indexError
  | valueError
  | notImplementedError (msg : String)
  deriving DecidableEq, Repr

/-! ## First-occurrence deduplication (pandas `unique` / `drop_duplicates`) -/

/-- Keep the elements of `l` that are not in `seen` and not already kept:
the first occurrence of each value, in order of first appearance. -/
def dedupAux {α : Type} [DecidableEq α] (seen : List α) : List α → List α
  | [] => []
  | a :: as => if a ∈ seen then dedupAux seen as else a :: dedupAux (a :: seen) as

/-- pandas `Series.unique` / `DataFrame.drop_duplicates`: distinct values in
order of first appearance. -/
def dedupFirst {α : Type} [DecidableEq α] (l : List α) : List α :=
  dedupAux [] l

theorem mem_dedupAux {α : Type} [DecidableEq α] (l : List α) (seen : List α) (b : α) :
    b ∈ dedupAux seen l ↔ b ∈ l ∧ b ∉ seen := by
  induction l generalizing seen with
  | nil => simp [dedupAux]
  | cons a as ih =>
    simp only [dedupAux]
    by_cases ha : a ∈ seen
    · rw [if_pos ha, ih]
      simp only [List.mem_cons]
      constructor
      · rintro ⟨h1, h2⟩; exact ⟨Or.inr h1, h2⟩
      · rintro ⟨rfl | h1, h2⟩
        · exact absurd ha h2
        · exact ⟨h1, h2⟩
    · rw [if_neg ha]
      simp only [List.mem_cons, ih]
      constructor
      · rintro (rfl | ⟨h1, h2⟩)
        · exact ⟨Or.inl rfl, ha⟩
        · exact ⟨Or.inr h1, fun hb => h2 (Or.inr hb)⟩
      · rintro ⟨rfl | h1, h2⟩
        · exact Or.inl rfl
        · rcases eq_or_ne b a with rfl | hba
          · exact Or.inl rfl
          · refine Or.inr ⟨h1, fun hmem => ?_⟩
            rcases hmem with h | h
            · exact hba h
            · exact h2 h

theorem mem_dedupFirst {α : Type} [DecidableEq α] (l : List α) (b : α) :
    b ∈ dedupFirst l ↔ b ∈ l := by
  simp [dedupFirst, mem_dedupAux]

theorem dedupAux_nodup {α : Type} [DecidableEq α] (l : List α) (seen : List α) :
    (dedupAux seen l).Nodup ∧ ∀ b ∈ dedupAux seen l, b ∉ seen := by
  induction l generalizing seen with
  | nil => simp [dedupAux]
  | cons a as ih =>
    by_cases ha : a ∈ seen
    · simpa [dedupAux, ha] using ih seen
    · obtain ⟨h1, h2⟩ := ih (a :: seen)
      refine ⟨?_, ?_⟩
      · simp only [dedupAux, ha, if_neg, not_false_iff, List.nodup_cons]
        refine ⟨fun hmem => ?_, h1⟩
        exact (h2 a hmem) (List.mem_cons_self a seen)
      · intro b hb
        simp only [dedupAux, ha, if_neg, not_false_iff, List.mem_cons] at hb
        rcases hb with rfl | hb
        · exact ha
        · intro hbs
          exact h2 b hb (List.mem_cons_of_mem a hbs)

/-- Deduplicating a list that is already duplicate-free (and disjoint from
`seen`) is the identity. -/
theorem dedupAux_eq_self {α : Type} [DecidableEq α] (l : List α) (seen : List α)
    (hn : l.Nodup) (hs : ∀ b ∈ l, b ∉ seen) : dedupAux seen l = l := by
  induction l generalizing seen with
  | nil => rfl
  | cons a as ih =>
    have ha : a ∉ seen := hs a (List.mem_cons_self a as)
    simp only [dedupAux, ha, if_neg, not_false_iff, List.cons.injEq, true_and]
    have hn' := List.nodup_cons.mp hn
    refine ih (a :: seen) hn'.2 ?_
    intro b hb
    simp only [List.mem_cons]
    rintro (rfl | hbs)
    · exact hn'.1 hb
    · exact hs b (List.mem_cons_of_mem a hb) hbs

/-! ## Python string-to-number grammars

`_parse_number` calls Python's `float()` and `_parse_integer` calls `int()`.
The grammars below model CPython's accepted string forms (ASCII whitespace
and digits; optional sign; `inf`/`infinity`/`nan` case-insensitively for
`float`; digit groups separated by single underscores), with values taken in
`ℚ` so decimal literals are exact. -/

/-- ASCII whitespace stripped by Python's number constructors. -/
def isPySpace (c : Char) : Bool :=
  c = ' ' || c = '\t' || c = '\n' || c = '\r' || c = '\x0b' || c = '\x0c'

/-- Python `str.strip()` over a character list. -/
def pyStrip (l : List Char) : List Char :=
  ((l.dropWhile isPySpace).reverse.dropWhile isPySpace).reverse

/-- Consume an optional `+`/`-`; `true` means negative. -/
def takeSign : List Char → Bool × List Char
  | '+' :: rest => (false, rest)
  | '-' :: rest => (true, rest)
  | l => (false, l)

/-- Digit-run continuation: digits, optionally separated by single
underscores. Returns accumulated value, digit count and the rest. -/
def digitpartGo (acc nd : ℕ) : List Char → ℕ × ℕ × List Char
  | c :: rest =>
    if c.isDigit then digitpartGo (10 * acc + (c.toNat - 48)) (nd + 1) rest
    else if c = '_' then
      match rest with
      | d :: rest' =>
        if d.isDigit then digitpartGo (10 * acc + (d.toNat - 48)) (nd + 1) rest'
        else (acc, nd, c :: d :: rest')
      | [] => (acc, nd, [c])
    else (acc, nd, c :: rest)
  | [] => (acc, nd, [])

/-- CPython `digitpart`: `digit (["_"] digit)*`. `none` if the input does not
start with a digit. -/
def takeDigitpart (l : List Char) : Option (ℕ × ℕ × List Char) :=
  match l with
  | c :: rest => if c.isDigit then some (digitpartGo (c.toNat - 48) 1 rest) else none
  | [] => none

/-- Exponent suffix of a float literal: empty, or `(e|E) [sign] digitpart`
consuming the whole remainder. The mantissa/scale pair `(m, e)` denotes the
exact value `m · 10^e`. -/
def pyFloatExp (m : ℤ) (e : ℤ) (l : List Char) : Option (ℤ × ℤ) :=
  match l with
  | [] => some (m, e)
  | c :: rest =>
    if c = 'e' ∨ c = 'E' then
      let (eneg, rest2) := takeSign rest
      match takeDigitpart rest2 with
      | some (ex, _, rest3) =>
        if rest3 = [] then
          some (m, e + (if eneg then -(ex : ℤ) else (ex : ℤ)))
        else none
      | none => none
    else none

/-- Unsigned numeric float literal:
`digitpart ["." [digitpart]] [exp] | "." digitpart [exp]`, as an exact
mantissa/scale pair. -/
def pyFloatNumeric (l : List Char) : Option (ℤ × ℤ) :=
  match takeDigitpart l with
  | some (ip, _, rest) =>
    match rest with
    | '.' :: rest2 =>
      match takeDigitpart rest2 with
      | some (fp, nd, rest3) =>
        pyFloatExp ((ip : ℤ) * 10 ^ nd + (fp : ℤ)) (-(nd : ℤ)) rest3
      | none => pyFloatExp (ip : ℤ) 0 rest2
    | _ => pyFloatExp (ip : ℤ) 0 rest
  | none =>
    match l with
    | '.' :: rest2 =>
      match takeDigitpart rest2 with
      | some (fp, nd, rest3) => pyFloatExp (fp : ℤ) (-(nd : ℤ)) rest3
      | none => none
    | _ => none

/-- A CPython `float` value as observed by this code base: a finite value
(exact decimal `m · 10^e`), a signed infinity, or NaN. -/
inductive PyF where
  | fin (m : ℤ) (e : ℤ)
  | inf (neg : Bool)
  | nan
  deriving DecidableEq, Repr

/-- The exact rational value of a finite `PyF`. -/
def PyF.val : PyF → Option ℚ
  | .fin m e => some ((m : ℚ) * 10 ^ e)
  | _ => none

/-- CPython `float(s)` on a string: `none` models `ValueError`. -/
def pyFloatOfString (s : String) : Option PyF :=
  let l := pyStrip s.data
  let (neg, rest) := takeSign l
  let low := rest.map Char.toLower
  if low = "inf".data ∨ low = "infinity".data then some (.inf neg)
  else if low = "nan".data then some .nan
  else
    match pyFloatNumeric rest with
    | some (m, e) => some (.fin (if neg then -m else m) e)
    | none => none

/-- CPython `int(s)` on a string: optional whitespace and sign, then a
digitpart consuming the whole remainder. `none` models `ValueError`. -/
def pyIntOfString (s : String) : Option ℤ :=
  let l := pyStrip s.data
  let (neg, rest) := takeSign l
  match takeDigitpart rest with
  | some (v, _, rest2) =>
    if rest2 = [] then some (if neg then -(v : ℤ) else (v : ℤ)) else none
  | none => none

/-! ## `parse_number` (parse.py, default settings)

With `decimalChar="."`, `groupChar=None`, `bareNumber=True` and
`raise_first_invalid_number = False` (the defaults), `parse_number` applies
`_parse_number` elementwise (null cells hold `float('nan')`, on which
`float()` succeeds), collects the raw values at positions that are non-null
but failed to parse, and either returns one error listing their distinct
values in first-occurrence order, or the parsed column. -/

/-- Result of a field parser: a typed column, or a single type error
carrying the invalid raw values. -/
inductive ParseResult (β : Type) where
  | ok (col : List β)
  | err (values : List String)
  deriving DecidableEq, Repr

/-- Result of `parse_number`: the typed column is `float64`, so a null input
cell becomes NaN. -/
abbrev NumParseResult := ParseResult PyF

/-- The non-null raw values of a column on which `float()` fails, in row
order: the mask `~x.isna() & parsed.isin(['NULL'])` applied to `x`,
computed cell by cell (`parsed` is elementwise `_parse_number`, and a null
cell holds `float('nan')`, on which `float()` succeeds). -/
def invalidNumberRaws (x : List (Option String)) : List String :=
  x.filterMap (fun xi =>
    match xi with
    | some s => if (pyFloatOfString s).isNone then some s else none
    | none => none)

/-- Embedding of `parse_number(x)` with default arguments and fast mode off. -/
def parse_number (x : List (Option String)) : NumParseResult :=
  -- parsed = x.apply(_parse_number)
  let parsed : List (Option PyF) := x.map (fun xi =>
    match xi with
    | none => some PyF.nan
    | some s => pyFloatOfString s)
  -- if invalid.any(): return error with x[invalid].unique().tolist()
  if invalidNumberRaws x = [] then
    -- return parsed.where(~unparsed).astype(float)
    .ok (parsed.map (fun p => p.getD PyF.nan))
  else .err (dedupFirst (invalidNumberRaws x))

/-- Characterisation: `parse_number` returns an error exactly when some non-null value fails
`float()`, and that single error lists the distinct invalid raw values in
order of first appearance. -/
theorem parse_number_err_characterisation (x : List (Option String)) :
    (∀ vs, parse_number x = .err vs →
      vs = dedupFirst (invalidNumberRaws x) ∧
      (∀ s, s ∈ vs ↔ s ∈ invalidNumberRaws x)) ∧
    ((∃ col, parse_number x = .ok col) ↔ invalidNumberRaws x = []) := by
  constructor
  · intro vs hvs
    unfold parse_number at hvs
    by_cases he : invalidNumberRaws x = []
    · simp [he] at hvs
    · rw [if_neg he] at hvs
      cases hvs
      exact ⟨rfl, fun s => mem_dedupFirst _ s⟩
  · unfold parse_number
    by_cases he : invalidNumberRaws x = []
    · rw [if_pos he]
      exact iff_of_true ⟨_, rfl⟩ he
    · rw [if_neg he]
      constructor
      · rintro ⟨col, h⟩
        cases h
      · intro h
        exact absurd h he

/-! ## `parse_integer` (parse.py, default settings)

With `bareNumber=True` and `raise_first_invalid_integer = False`,
`parse_integer` applies `_parse_integer` (Python `int()`, with failures
becoming NaN; a null cell holds `float('nan')`, on which `int()` fails, so
nulls stay null) and collects the non-null raw values whose parse failed. -/

/-- The non-null raw values of a column on which `int()` fails, in row
order: `x[~x.isna() & parsed.isna()]` computed cell by cell. -/
def invalidIntegerRaws (x : List (Option String)) : List String :=
  x.filterMap (fun xi =>
    match xi with
    | some s => if (pyIntOfString s).isNone then some s else none
    | none => none)

/-- Embedding of `parse_integer(x)` with default arguments and fast mode off. -/
def parse_integer (x : List (Option String)) : ParseResult (Option ℤ) :=
  -- parsed = x.apply(_parse_integer); int(float('nan')) fails, so null ↦ NaN
  let parsed : List (Option ℤ) := x.map (fun xi => xi.bind pyIntOfString)
  if invalidIntegerRaws x = [] then .ok parsed
  else .err (dedupFirst (invalidIntegerRaws x))

/-! ## `parse_date` (parse.py, `format="default"`)

`pd.to_datetime(x, errors="coerce", format="%Y-%m-%d")` matches the strptime
pattern exactly: `%Y` is exactly four digits, `%m` and `%d` are one or two
digits in range (per CPython's `TimeRE`: `1[0-2]|0[1-9]|[1-9]` and
`3[01]|[12]\d|0[1-9]|[1-9]`), the result must be a real proleptic-Gregorian
calendar date with year ≥ 1, and — because the result dtype is
`datetime64[ns]` — any date outside the `pd.Timestamp` range
(1677-09-21T00:12:43 … 2262-04-11T23:47:16) is coerced to `NaT` and hence
reported invalid. -/

/-- A calendar date. -/
structure Ymd where
  y : ℕ
  m : ℕ
  d : ℕ
  deriving DecidableEq, Repr

/-- Split a character list on a separator character (like `str.split`). -/
def splitOnCharAux (sep : Char) (cur : List Char) : List Char → List (List Char)
  | [] => [cur.reverse]
  | c :: rest =>
    if c = sep then cur.reverse :: splitOnCharAux sep [] rest
    else splitOnCharAux sep (c :: cur) rest

/-- Split a character list on a separator character. -/
def splitOnChar (sep : Char) (l : List Char) : List (List Char) :=
  splitOnCharAux sep [] l

/-- Digits-only character run. -/
def allDigits (s : List Char) : Bool := s.all Char.isDigit

/-- Numeric value of a digit run. -/
def natOfDigits (s : List Char) : ℕ :=
  s.foldl (fun a c => 10 * a + (c.toNat - 48)) 0

/-- Proleptic Gregorian leap year. -/
def isLeap (y : ℕ) : Bool := y % 4 = 0 && (y % 100 ≠ 0 || y % 400 = 0)

/-- Days in a month of the proleptic Gregorian calendar. -/
def daysInMonth (y m : ℕ) : ℕ :=
  if m = 2 then (if isLeap y then 29 else 28)
  else if m = 4 ∨ m = 6 ∨ m = 9 ∨ m = 11 then 30
  else 31

/-- Embedding of `datetime.strptime(s, "%Y-%m-%d")` followed by the `datetime`
constructor's validity check: `none` models both a pattern mismatch and a
non-existent calendar date. -/
def strptimeYmdDefault (s : String) : Option Ymd :=
  match splitOnChar '-' s.data with
  | [ys, ms, ds] =>
    if ys.length = 4 && allDigits ys
        && decide (1 ≤ ms.length) && decide (ms.length ≤ 2) && allDigits ms
        && decide (1 ≤ ds.length) && decide (ds.length ≤ 2) && allDigits ds then
      let y := natOfDigits ys
      let m := natOfDigits ms
      let d := natOfDigits ds
      if 1 ≤ m && m ≤ 12 && 1 ≤ d && d ≤ 31 && 1 ≤ y && d ≤ daysInMonth y m then
        some ⟨y, m, d⟩
      else none
    else none
  | _ => none

/-- Lexicographic order on calendar dates. -/
def ymdLe (a b : Ymd) : Bool :=
  a.y < b.y || (a.y = b.y && (a.m < b.m || (a.m = b.m && a.d ≤ b.d)))

/-- Whether midnight of the date fits in `pd.Timestamp`
(min 1677-09-21T00:12:43.145224193, max 2262-04-11T23:47:16.854775807):
every date from 1677-09-22 through 2262-04-11. -/
def inTimestampBounds (x : Ymd) : Bool :=
  ymdLe ⟨1677, 9, 22⟩ x && ymdLe x ⟨2262, 4, 11⟩

/-- Embedding of `pd.to_datetime(s, errors="coerce", format="%Y-%m-%d")` on one cell:
out-of-bounds dates are coerced to `NaT` (`none`). -/
def pdToDatetimeDefault (s : String) : Option Ymd :=
  match strptimeYmdDefault s with
  | some dte => if inTimestampBounds dte then some dte else none
  | none => none

/-- The non-null raw values of a column that `pd.to_datetime` coerced to
`NaT`: `x[~x.isna() & parsed.isna()]` computed cell by cell. -/
def invalidDateRaws (x : List (Option String)) : List String :=
  x.filterMap (fun xi =>
    match xi with
    | some s => if (pdToDatetimeDefault s).isNone then some s else none
    | none => none)

/-- Embedding of `parse_date(x)` with `format="default"`. -/
def parse_date (x : List (Option String)) : ParseResult (Option Ymd) :=
  let parsed : List (Option Ymd) := x.map (fun xi => xi.bind pdToDatetimeDefault)
  if invalidDateRaws x = [] then .ok parsed
  else .err (dedupFirst (invalidDateRaws x))

/-- The specification's validity notion for the default date format, for
comparison with the code: the value produces a valid calendar date under
the fixed pattern `%Y-%m-%d` (no representation-range restriction). -/
def specValidDateDefault (s : String) : Bool :=
  (strptimeYmdDefault s).isSome

/-! ## Data model for check.py -/

/-- The `reference` part of a foreign key descriptor. -/
structure FKRef where
  resource : String
  fields : List String
  deriving DecidableEq, Repr

/-- A foreign key descriptor
(`{"fields": [...], "reference": {"resource": ..., "fields": [...]}}`),
with the field lists already normalized to lists. -/
structure FKDesc where
  fields : List String
  reference : FKRef
  deriving DecidableEq, Repr

/-- Constraint values attached to errors. -/
inductive CVal (α : Type) where
  | cbool (b : Bool)
  | cnat (n : ℕ)
  | cstr (s : String)
  | cval (v : α)
  | cvals (vs : List α)
  deriving DecidableEq, Repr

/-- Modelled from the spec: the error classes (`ConstraintError`,
`PrimaryKeyError`, `UniqueKeyError`, `ForeignKeyError`) that check.py
imports from errors.py are not present under src/ (errors.py there is an
older revision exporting constructor functions only). Per §3 of the spec an
error is a tagged variant with kind-dependent attributes: field name,
constraint name and value, offending value(s), referenced resource name,
key or foreign-key descriptor. -/
inductive CheckError (α : Type) where
  | typeE (fieldName : String) (fieldType : String) (values : List String) : CheckError α
  | constraintE (fieldName constraintName : String) (constraintValue : CVal α)
      (values : List (Option α))
  | primaryKeyE (primaryKey : List String) (values : List (List (Option α))) : CheckError α
  | uniqueKeyE (uniqueKey : List String) (values : List (List (Option α))) : CheckError α
  | foreignKeyE (reference : String) (foreignKey : FKDesc)
      (values : List (List (Option α))) : CheckError α
  deriving DecidableEq, Repr

/-- A pandas `DataFrame`: named columns over rows of nullable cells.
`oid` models Python object identity (`is` comparisons). -/
structure Frame (α : Type) where
  oid : ℕ
  cols : List String
  rows : List (List (Option α))
  deriving DecidableEq, Repr

/-- Index of a column label, if present. -/
def Frame.colIdx {α : Type} (f : Frame α) (c : String) : Option ℕ :=
  f.cols.findIdx? (fun c' => c' = c)

/-- The cell of a row at a column index (a pandas frame is rectangular, so
the out-of-range default is never hit on real data). -/
def cellAt {α : Type} (row : List (Option α)) (i : ℕ) : Option α :=
  (row.get? i).getD none

/-- Row projection `df[key]` onto column indices. -/
def projectRow {α : Type} (idxs : List ℕ) (row : List (Option α)) : List (Option α) :=
  idxs.map (cellAt row)

/-- Effectful map over `Except`, returning the first error. -/
def mapExcept {β γ ε : Type} (f : β → Except ε γ) : List β → Except ε (List γ)
  | [] => Except.ok []
  | a :: as => do
    let b ← f a
    let bs ← mapExcept f as
    Except.ok (b :: bs)

theorem mapExcept_ok_length {β γ ε : Type} (f : β → Except ε γ) (l : List β)
    (out : List γ) (h : mapExcept f l = Except.ok out) : out.length = l.length := by
  induction l generalizing out with
  | nil =>
    simp only [mapExcept] at h
    cases h
    rfl
  | cons a as ih =>
    simp only [mapExcept, bind, Except.bind] at h
    cases hfa : f a with
    | error e => rw [hfa] at h; cases h
    | ok b =>
      rw [hfa] at h
      cases hrest : mapExcept f as with
      | error e => rw [hrest] at h; cases h
      | ok bs =>
        rw [hrest] at h
        cases h
        simp [ih bs hrest]

/-- Resolve key column labels to indices; a missing label is a `KeyError`,
as for `df[name]` in pandas. -/
def Frame.keyIdxs {α : Type} (f : Frame α) (key : List String) : Except PyErr (List ℕ) :=
  mapExcept (fun c =>
    match f.colIdx c with
    | some i => Except.ok i
    | none => Except.error (PyErr.keyError c)) key

/-- Column access `df[name]`: one column as a list of nullable cells. -/
def Frame.col {α : Type} (f : Frame α) (name : String) :
    Except PyErr (List (Option α)) :=
  match f.colIdx name with
  | some i => Except.ok (f.rows.map (fun r => cellAt r i))
  | none => Except.error (PyErr.keyError name)

/-- pandas `duplicated()` (keep='first') with an explicit prefix of already
seen values: a row is flagged iff an earlier row is equal (nulls compare
equal). -/
def duplicatedMaskAux {β : Type} [DecidableEq β] (pre : List β) : List β → List Bool
  | [] => []
  | t :: ts => decide (t ∈ pre) :: duplicatedMaskAux (t :: pre) ts

/-- pandas `duplicated()` (keep='first'). -/
def duplicatedMask {β : Type} [DecidableEq β] (l : List β) : List Bool :=
  duplicatedMaskAux [] l

/-- Boolean-mask selection `rows[mask]`. -/
def maskSelect {β : Type} (rows : List β) (mask : List Bool) : List β :=
  (rows.zip mask).filterMap (fun p => if p.2 then some p.1 else none)

/-! ## A fragment of Python regular expressions

`check_field_constraints` evaluates `x.str.match("^" + pattern + "$")`,
i.e. `re.match` of the wrapped pattern. The fragment modelled here —
literal characters, top-level alternation `|`, and the anchors `^`/`$` —
is exactly what is needed to settle the anchoring claim: in Python's
grammar `|` has the lowest precedence, so the string-level wrapping
`"^" + pattern + "$"` anchors only the first and last alternatives. `$` is
modelled as end-of-string (its match before a trailing newline is not
modelled). -/

/-- A regex atom of the modelled fragment. -/
inductive RAtom where
  | ch (c : Char)
  | astart
  | aend
  deriving DecidableEq, Repr

/-- Interpret one pattern character. -/
def atomOf (c : Char) : RAtom :=
  if c = '^' then .astart else if c = '$' then .aend else .ch c

/-- Parse a pattern of the fragment: split on top-level `|`, atoms
literal. -/
def parsePat (p : String) : List (List RAtom) :=
  (splitOnChar '|' p.data).map (fun b => b.map atomOf)

/-- Match one branch at position `pos`, consuming any prefix
(`re.match` semantics): `^` holds only at position 0, `$` only at the end
of the subject. -/
def mAt : List RAtom → ℕ → List Char → Bool
  | [], _, _ => true
  | .ch c :: as, pos, x :: rest => x = c && mAt as (pos + 1) rest
  | .ch _ :: _, _, [] => false
  | .astart :: as, pos, rest => pos = 0 && mAt as pos rest
  | .aend :: as, pos, rest => rest = [] && mAt as pos rest

/-- Python `re.match(pattern, s)` over the fragment: some alternative matches a
prefix of `s` starting at position 0. -/
def reMatch (pat : List (List RAtom)) (s : String) : Bool :=
  pat.any (fun b => mAt b 0 s.data)

/-- Match one branch against the entire remaining subject. -/
def mFull : List RAtom → ℕ → List Char → Bool
  | [], _, rest => rest = []
  | .ch c :: as, pos, x :: rest => x = c && mFull as (pos + 1) rest
  | .ch _ :: _, _, [] => false
  | .astart :: as, pos, rest => pos = 0 && mFull as pos rest
  | .aend :: as, pos, rest => rest = [] && mFull as pos rest

/-- The specification's notion for the pattern constraint: the whole value,
anchored at both ends, matches the regular expression. -/
def specFullMatch (pat : List (List RAtom)) (s : String) : Bool :=
  pat.any (fun b => mFull b 0 s.data)

/-! ## Typed cell values

Cells of a parsed table: the declared field types exercised by the claims.
`PyF.lt` is the pandas `<` on float cells (NaN incomparable). -/

/-- Compare two exact decimals `m1·10^e1 < m2·10^e2`. -/
def finLt (m1 e1 m2 e2 : ℤ) : Bool :=
  if e1 ≤ e2 then m1 < m2 * 10 ^ (e2 - e1).toNat
  else m1 * 10 ^ (e1 - e2).toNat < m2

/-- Comparison `<` on float values: NaN compares false with everything. -/
def PyF.lt : PyF → PyF → Bool
  | .nan, _ => false
  | _, .nan => false
  | .inf n1, .inf n2 => n1 && !n2
  | .inf n1, .fin _ _ => n1
  | .fin _ _, .inf n2 => !n2
  | .fin m1 e1, .fin m2 e2 => finLt m1 e1 m2 e2

/-- Strict lexicographic order on dates. -/
def ymdLt (a b : Ymd) : Bool := ymdLe a b && a ≠ b

/-- A typed table cell. -/
inductive Val where
  | vstr (s : String)
  | vint (n : ℤ)
  | vnum (f : PyF)
  | vdate (d : Ymd)
  deriving DecidableEq, Repr

/-! ## `check_field_constraints` (check.py) -/

/-- Elementwise operations pandas applies to a typed column, supplied per
cell type: `.str.len()`, `<`, and `.str.match(pattern)` (`re.match`
semantics). The type guards inside `check_field_constraints` ensure each is
only consulted for field types that support it. -/
class FieldOps (α : Type) where
  lenOf : α → ℕ
  ltv : α → α → Bool
  matchVal : String → α → Bool

/-- A field's constraints map
(https://specs.frictionlessdata.io/table-schema/#constraints). `minimum`,
`maximum` and `enum` are modelled as already-typed literals, for which
`parse_field_constraint` is the identity (parse.py lines 87-91: a
constraint value with no string content is returned unchanged). -/
structure Constraints (α : Type) where
  required : Bool := false
  unique : Bool := false
  minLength : Option ℕ := none
  maxLength : Option ℕ := none
  minimum : Option α := none
  maximum : Option α := none
  pattern : Option String := none
  enum : Option (List α) := none
  deriving DecidableEq, Repr

/-- The `field` argument of `check_field_constraints` after the
`.get` defaults: `field.get("name", "field")`, `field.get("type", "string")`. -/
structure FieldDesc where
  name : String := "field"
  ftype : String := "string"
  deriving DecidableEq, Repr

/-- The tuple `("string", "array", "object")`. -/
def length_types : List String := ["string", "array", "object"]

/-- The tuple `("integer", "number", "date", "time", "datetime", "year", "yearmonth")`. -/
def minmax_types : List String :=
  ["integer", "number", "date", "time", "datetime", "year", "yearmonth"]

/-- Embedding of `check_field_constraints(x, **constraints, field=field)`: one error per
violated constraint kind, in source order required, unique, minLength,
maxLength, minimum, maximum, pattern, enum. The maxLength branch labels its
error "minLength" exactly as the source does (check.py line 117). -/
def check_field_constraints {α : Type} [DecidableEq α] [FieldOps α]
    (x : List (Option α)) (c : Constraints α) (field : FieldDesc) :
    List (CheckError α) :=
  let name := field.name
  let ftype := field.ftype
  let e1 : List (CheckError α) :=
    if c.required && x.any Option.isNone then
      [.constraintE name "required" (.cbool true) [none]]
    else []
  let e2 : List (CheckError α) :=
    if c.unique then
      let flagged := maskSelect x (duplicatedMask x)
      if flagged ≠ [] then
        [.constraintE name "unique" (.cbool true) (dedupFirst flagged)]
      else []
    else []
  -- x = x.dropna()
  let xs : List α := x.filterMap id
  let e3 : List (CheckError α) :=
    match c.minLength with
    | some n =>
      if ftype ∈ length_types then
        let bad := xs.filter (fun v => FieldOps.lenOf v < n)
        if bad ≠ [] then
          [.constraintE name "minLength" (.cnat n) ((dedupFirst bad).map some)]
        else []
      else []
    | none => []
  let e4 : List (CheckError α) :=
    match c.maxLength with
    | some n =>
      if ftype ∈ length_types then
        let bad := xs.filter (fun v => n < FieldOps.lenOf v)
        if bad ≠ [] then
          [.constraintE name "minLength" (.cnat n) ((dedupFirst bad).map some)]
        else []
      else []
    | none => []
  let e5 : List (CheckError α) :=
    match c.minimum with
    | some m =>
      if ftype ∈ minmax_types then
        let bad := xs.filter (fun v => FieldOps.ltv v m)
        if bad ≠ [] then
          [.constraintE name "minimum" (.cval m) ((dedupFirst bad).map some)]
        else []
      else []
    | none => []
  let e6 : List (CheckError α) :=
    match c.maximum with
    | some m =>
      if ftype ∈ minmax_types then
        let bad := xs.filter (fun v => FieldOps.ltv m v)
        if bad ≠ [] then
          [.constraintE name "maximum" (.cval m) ((dedupFirst bad).map some)]
        else []
      else []
    | none => []
  let e7 : List (CheckError α) :=
    match c.pattern with
    | some p =>
      -- `if pattern and type in ("string",)`: an empty pattern is falsy
      if p ≠ "" && decide (ftype ∈ ["string"]) then
        let bad := xs.filter (fun v => !FieldOps.matchVal ("^" ++ p ++ "$") v)
        if bad ≠ [] then
          [.constraintE name "pattern" (.cstr p) ((dedupFirst bad).map some)]
        else []
      else []
    | none => []
  let e8 : List (CheckError α) :=
    match c.enum with
    | some es =>
      -- `if enum:`: an empty list is falsy
      if es ≠ [] then
        let bad := xs.filter (fun v => v ∉ es)
        if bad ≠ [] then
          [.constraintE name "enum" (.cvals es) ((dedupFirst bad).map some)]
        else []
      else []
    | none => []
  e1 ++ e2 ++ e3 ++ e4 ++ e5 ++ e6 ++ e7 ++ e8

/-! ## Key checks (check.py) -/

/-- Embedding of `check_primary_key(df, primaryKey, skip_required, skip_single)`. -/
def check_primary_key {α : Type} [DecidableEq α] [FieldOps α] (df : Frame α)
    (primaryKey : List String) (skip_required skip_single : Bool) :
    Except PyErr (List (CheckError α)) :=
  -- `if key:`: an empty key list is falsy
  if primaryKey = [] then Except.ok []
  else do
    let reqErrors ←
      if !skip_required then
        primaryKey.foldlM (fun acc nm => do
          let col ← df.col nm
          Except.ok (acc ++ check_field_constraints col { required := true }
            { name := nm, ftype := "string" })) ([] : List (CheckError α))
      else Except.ok []
    if skip_single && primaryKey.length < 2 then Except.ok reqErrors
    else do
      let idxs ← df.keyIdxs primaryKey
      let tuples := df.rows.map (projectRow idxs)
      let flagged := maskSelect tuples (duplicatedMask tuples)
      Except.ok (reqErrors ++
        (if flagged ≠ [] then [.primaryKeyE primaryKey (dedupFirst flagged)] else []))

/-- Embedding of `check_unique_keys(df, uniqueKeys, skip_single)`. -/
def check_unique_keys {α : Type} [DecidableEq α] (df : Frame α)
    (uniqueKeys : List (List String)) (skip_single : Bool) :
    Except PyErr (List (CheckError α)) :=
  match uniqueKeys with
  | [] => Except.ok []
  | key :: rest => do
    let more ← check_unique_keys df rest skip_single
    if skip_single && key.length < 2 then Except.ok more
    else do
      let idxs ← df.keyIdxs key
      let tuples := df.rows.map (projectRow idxs)
      let flagged := maskSelect tuples (duplicatedMask tuples)
      Except.ok ((if flagged ≠ [] then [.uniqueKeyE key (dedupFirst flagged)] else [])
        ++ more)

/-- Whether a key tuple has a null component (`x.isna().any(axis=1)`). -/
def hasNull {α : Type} (t : List (Option α)) : Bool := t.any Option.isNone

/-- The foreign-key invalid mask, multi-column branch:
`~(pd.concat([y, x]).duplicated().iloc[len(y):] | x.isna().any(axis=1))`.
A child tuple is invalid iff it is not equal to any parent tuple, not equal
to any earlier child tuple, and has no null component. -/
def fkInvalidMaskMulti {α : Type} [DecidableEq α]
    (ys pre : List (List (Option α))) : List (List (Option α)) → List Bool
  | [] => []
  | t :: ts =>
    (!(decide (t ∈ ys) || decide (t ∈ pre) || hasNull t))
      :: fkInvalidMaskMulti ys (t :: pre) ts

/-- The foreign-key invalid mask, single-column branch:
`~(x.iloc[:,0].isin(y.iloc[:,0]) | x.iloc[:,0].isna())`, expressed on
1-tuples. -/
def fkInvalidMaskSingle {α : Type} [DecidableEq α]
    (ys : List (List (Option α))) (xs : List (List (Option α))) : List Bool :=
  xs.map (fun t => !(decide (t ∈ ys) || hasNull t))

/-- Python `str.lower()`. -/
def strToLower (s : String) : String := ⟨s.data.map Char.toLower⟩

/-- Resolve a reference resource name in the accumulated table map. -/
def lookupRef {α : Type} (references : List (String × Frame α)) (name : String) :
    Option (Frame α) :=
  (references.find? (fun p => p.1 = name)).map (fun p => p.2)

/-- Embedding of `check_foreign_keys(df, foreignKeys, references, constraint)`. -/
def check_foreign_keys {α : Type} [DecidableEq α] [FieldOps α] (child : Frame α)
    (foreignKeys : List FKDesc) (references : List (String × Frame α))
    (constraint : Option String) : Except PyErr (List (CheckError α)) :=
  match foreignKeys with
  | [] => Except.ok []
  | fk :: rest => do
    let parent? :=
      if fk.reference.resource = "" then some child
      else lookupRef references fk.reference.resource
    match parent? with
    | none =>
      -- named parent not in references: silently skip this descriptor
      check_foreign_keys child rest references constraint
    | some parent => do
      let ckey := fk.fields
      let pkey := fk.reference.fields
      -- Check parent key constraint
      let perrors ←
        match constraint with
        | none => Except.ok ([] : List (CheckError α))
        | some cs =>
          if strToLower cs = "uniquekey" then check_unique_keys parent [pkey] false
          else if strToLower cs = "primarykey" then
            check_primary_key parent pkey false false
          else Except.ok []
      -- `for e in enumerate(perrors)` binds e to an (index, error) pair, so
      -- `"fieldName" in e` is always false and the else branch evaluates
      -- e["values"] on the tuple, raising TypeError on the first iteration.
      -- When parent is child, perrors is computed but dropped.
      if perrors ≠ [] && parent.oid ≠ child.oid then Except.error PyErr.typeError
      else do
        let cidx ← child.keyIdxs ckey
        let pidx ← parent.keyIdxs pkey
        let xs := child.rows.map (projectRow cidx)
        let ys := parent.rows.map (projectRow pidx)
        let invalid ←
          if ckey.length = 1 then
            match pidx with
            | [] => Except.error (PyErr.indexError)
            | j :: _ =>
              Except.ok (fkInvalidMaskSingle
                (parent.rows.map (fun r => [cellAt r j])) xs)
          else if pkey.length ≠ ckey.length then
            -- parent[pkey].set_axis(range(len(ckey)), axis=1) raises
            Except.error (PyErr.valueError)
          else Except.ok (fkInvalidMaskMulti ys [] xs)
        let bad := maskSelect xs invalid
        let here : List (CheckError α) :=
          if bad ≠ [] then
            [.foreignKeyE fk.reference.resource fk (dedupFirst bad)]
          else []
        let more ← check_foreign_keys child rest references constraint
        Except.ok (here ++ more)

/-- pandas column operations over string cells: `.str.len()`,
lexicographic `<`, and `.str.match` via the regex fragment. -/
instance : FieldOps String where
  lenOf := String.length
  ltv a b := decide (a < b)
  matchVal p v := reMatch (parsePat p) v

/-- pandas column operations over integer cells; `.str` accessors do not
apply to integer columns and are only reachable behind the `type in
length_types` / string guards, which integer-typed fields never pass. -/
instance : FieldOps ℤ where
  lenOf _ := 0
  ltv a b := decide (a < b)
  matchVal _ _ := false

/-- pandas column operations over typed cells. Cross-type comparisons do
not occur in a homogeneous typed column. -/
instance : FieldOps Val where
  lenOf v := match v with | .vstr s => s.length | _ => 0
  ltv a b :=
    match a, b with
    | .vstr s, .vstr t => decide (s < t)
    | .vint m, .vint n => decide (m < n)
    | .vnum f, .vnum g => PyF.lt f g
    | .vdate d, .vdate e => ymdLt d e
    | _, _ => false
  matchVal p v := match v with | .vstr s => reMatch (parsePat p) s | _ => false

/-! ## The orchestrator slice (validate.py)

The portion of `validate` that claims exercise: the schema expansion that
rewrites `primaryKey`/single-column `uniqueKeys` into field-level
constraints (lines 89-112), table parsing, and the check sequence run on a
parsed resource (lines 154-170). The cross-resource pass over foreign keys
(lines 76-88) only appends to referenced resources' `uniqueKeys` and is the
identity on a resource with no foreign keys. -/

/-- A resource schema with key entries already normalized to lists. -/
structure FieldSpec (α : Type) where
  name : String
  ftype : String
  constraints : Constraints α
  deriving DecidableEq, Repr

/-- A table schema. `primaryKey := none` models a schema without (or with a
popped) `primaryKey` entry. -/
structure Schema where
  fields : List (FieldSpec Val)
  primaryKey : Option (List String) := none
  uniqueKeys : List (List String) := []
  foreignKeys : List FKDesc := []
  deriving DecidableEq, Repr

/-- Embedding of `[list(t) for t in set(tuple(k) for k in keys)]`: Python's set
iteration order is unspecified; first-occurrence order is the one admissible
order the claims exercise (they apply this to at most a singleton set). -/
def dedupKeys (keys : List (List String)) : List (List String) :=
  dedupFirst keys

/-- validate.py lines 89-112: move `primaryKey` into per-field `required`
constraints and the `uniqueKeys` list, then move single-column unique keys
into per-field `unique` constraints. -/
def expandResourceSchema (s : Schema) : Schema :=
  let pk := s.primaryKey.getD []
  let required : List String := if pk ≠ [] then pk else []
  let uniqueKeys1 := if pk ≠ [] then dedupKeys (s.uniqueKeys ++ [pk]) else s.uniqueKeys
  let primaryKey1 : Option (List String) := if pk ≠ [] then none else s.primaryKey
  -- iterated in reverse index order in the source; only membership in
  -- `unique` is consulted afterwards
  let uniq : List String := ((uniqueKeys1.filter (fun k => k.length = 1)).reverse).flatten
  let uniqueKeys2 := uniqueKeys1.filter (fun k => k.length ≠ 1)
  let fields := s.fields.map (fun f =>
    let c := f.constraints
    let c := if f.name ∈ required then { c with required := true } else c
    let c := if f.name ∈ uniq then { c with unique := true } else c
    { f with constraints := c })
  { fields := fields, primaryKey := primaryKey1, uniqueKeys := uniqueKeys2,
    foreignKeys := s.foreignKeys }

/-- Dispatch of `parse_field` restricted to the targets the claims evaluate
(string with default format is the identity; integer, number and date via
the parsers above). A number column is `float64`, so a cell parsed to NaN
is indistinguishable from null and is represented as `none`. The
`unmodelled` error marks parsers outside this model (boolean, datetime,
year, geopoint); no claim evaluates it. -/
def parse_field_typed (x : List (Option String)) (ftype : String) :
    Except PyErr (Sum (List (Option Val)) (List String)) :=
  if ftype = "string" then Except.ok (.inl (x.map (fun o => o.map Val.vstr)))
  else if ftype = "integer" then
    match parse_integer x with
    | .ok col => Except.ok (.inl (col.map (fun o => o.map Val.vint)))
    | .err vs => Except.ok (.inr vs)
  else if ftype = "number" then
    match parse_number x with
    | .ok col => Except.ok (.inl (col.map (fun f =>
        if f = PyF.nan then none else some (Val.vnum f))))
    | .err vs => Except.ok (.inr vs)
  else if ftype = "date" then
    match parse_date x with
    | .ok col => Except.ok (.inl (col.map (fun o => o.map Val.vdate)))
    | .err vs => Except.ok (.inr vs)
  else Except.error (PyErr.notImplementedError ftype)

/-- Rebuild rows from parsed columns (the source assigns each parsed column
back into the frame in place; column order follows the schema's fields,
which match the reader's column order per §6 of the spec). -/
def transposeCols (cs : List (List (Option Val))) (nrows : ℕ) :
    List (List (Option Val)) :=
  (List.range nrows).map (fun i => cs.map (fun col => (col.get? i).getD none))

/-- Embedding of `parse_table(df, schema)`: parse every field, collecting one type error
per failing field; if any field failed, return the errors, else the typed
table. -/
def parse_table (df : Frame String) (fields : List (FieldSpec Val)) :
    Except PyErr (Sum (Frame Val) (List (CheckError Val))) := do
  let results ← mapExcept (fun f => do
    let col ← df.col f.name
    let r ← parse_field_typed col f.ftype
    pure (f, r)) fields
  let errors := results.filterMap (fun p =>
    match p.2 with
    | .inr vs => some (CheckError.typeE p.1.name p.1.ftype vs)
    | .inl _ => none)
  if errors ≠ [] then pure (.inr errors)
  else
    pure (.inl
      { oid := df.oid
        cols := fields.map (fun f => f.name)
        rows := transposeCols (results.filterMap (fun p =>
          match p.2 with
          | .inl c => some c
          | .inr _ => none)) df.rows.length })

/-- Embedding of `check_constraints(df, schema)`: `check_field_constraints` per field. -/
def check_constraints {α : Type} [DecidableEq α] [FieldOps α] (df : Frame α)
    (fields : List (FieldSpec α)) : Except PyErr (List (CheckError α)) :=
  fields.foldlM (fun acc f => do
    let col ← df.col f.name
    pure (acc ++ check_field_constraints col f.constraints
      { name := f.name, ftype := f.ftype })) ([] : List (CheckError α))

/-- The per-resource slice of `validate` (validate.py lines 89-112 and
148-170): expand the schema, parse the table (type errors short-circuit the
checks), then run `check_constraints`, `check_primary_key` (with
`skip_required=True, skip_single=True`) and `check_unique_keys` (with
`skip_single=True`). -/
def validate_resource (schemaIn : Schema) (raw : Frame String) :
    Except PyErr (List (CheckError Val)) := do
  let schema := expandResourceSchema schemaIn
  match ← parse_table raw schema.fields with
  | .inr errors => pure errors
  | .inl df => do
    let e1 ← check_constraints df schema.fields
    let e2 ← check_primary_key df (schema.primaryKey.getD []) true true
    let e3 ← check_unique_keys df schema.uniqueKeys true
    pure (e1 ++ e2 ++ e3)

/-! ## Supporting lemmas -/

theorem maskSelect_cons {β : Type} (r : β) (rs : List β) (b : Bool) (bs : List Bool) :
    maskSelect (r :: rs) (b :: bs)
      = if b then r :: maskSelect rs bs else maskSelect rs bs := by
  cases b <;> simp [maskSelect, List.zip_cons_cons]

theorem maskSelect_map_filter {β : Type} (l : List β) (f : β → Bool) :
    maskSelect l (l.map f) = l.filter f := by
  induction l with
  | nil => rfl
  | cons a as ih =>
    rw [List.map_cons, maskSelect_cons, List.filter_cons]
    cases h : f a <;> simp [h, ih]

theorem duplicatedMaskAux_get? {β : Type} [DecidableEq β] (l : List β)
    (pre : List β) (i : ℕ) (t : β) (ht : l.get? i = some t) :
    (duplicatedMaskAux pre l).get? i
      = some (decide (t ∈ pre ∨ ∃ j < i, l.get? j = some t)) := by
  induction l generalizing pre i with
  | nil => simp at ht
  | cons a as ih =>
    cases i with
    | zero =>
      rw [List.get?_cons_zero] at ht
      cases ht
      rw [duplicatedMaskAux, List.get?_cons_zero]
      congr 1
      rw [decide_eq_decide]
      constructor
      · exact Or.inl
      · rintro (h | ⟨j, hj, _⟩)
        · exact h
        · exact absurd hj (Nat.not_lt_zero j)
    | succ i' =>
      rw [List.get?_cons_succ] at ht
      rw [duplicatedMaskAux, List.get?_cons_succ, ih (a :: pre) i' ht]
      congr 1
      rw [decide_eq_decide]
      constructor
      · rintro (hm | ⟨j, hj, hget⟩)
        · rcases List.mem_cons.mp hm with rfl | hm
          · exact Or.inr ⟨0, Nat.succ_pos i', rfl⟩
          · exact Or.inl hm
        · exact Or.inr ⟨j + 1, Nat.succ_lt_succ hj, by rw [List.get?_cons_succ]; exact hget⟩
      · rintro (hm | ⟨j, hj, hget⟩)
        · exact Or.inl (List.mem_cons_of_mem a hm)
        · cases j with
          | zero =>
            rw [List.get?_cons_zero] at hget
            cases hget
            exact Or.inl (List.mem_cons_self _ _)
          | succ j' =>
            rw [List.get?_cons_succ] at hget
            exact Or.inr ⟨j', Nat.lt_of_succ_lt_succ hj, hget⟩

theorem duplicatedMask_get? {β : Type} [DecidableEq β] (l : List β) (i : ℕ) (t : β)
    (ht : l.get? i = some t) :
    (duplicatedMask l).get? i = some (decide (∃ j < i, l.get? j = some t)) := by
  rw [duplicatedMask, duplicatedMaskAux_get? l [] i t ht]
  congr 1
  rw [decide_eq_decide]
  constructor
  · rintro (hm | h)
    · exact absurd hm (List.not_mem_nil t)
    · exact h
  · exact Or.inr

/-- Occurrence count of a value in a list (instance-free formulation). -/
def countEq {b : Type} [DecidableEq b] (l : List b) (t : b) : ℕ :=
  l.countP (fun u => decide (u = t))

theorem countEq_cons {b : Type} [DecidableEq b] (a t : b) (l : List b) :
    countEq (a :: l) t = countEq l t + (if a = t then 1 else 0) := by
  simp [countEq, List.countP_cons]

theorem countEq_pos_iff {b : Type} [DecidableEq b] (l : List b) (t : b) :
    0 < countEq l t ↔ t ∈ l := by
  simp [countEq, List.countP_pos_iff]

theorem mem_maskSelect_duplicatedAux {β : Type} [DecidableEq β] (l pre : List β)
    (t : β) :
    t ∈ maskSelect l (duplicatedMaskAux pre l)
      ↔ (t ∈ l ∧ (t ∈ pre ∨ 2 ≤ countEq l t)) := by
  induction l generalizing pre with
  | nil => simp [maskSelect, duplicatedMaskAux]
  | cons a as ih =>
    rw [duplicatedMaskAux, maskSelect_cons]
    have hcnt : countEq (a :: as) t = countEq as t + (if a = t then 1 else 0) :=
      countEq_cons a t as
    by_cases hta : t = a
    · subst hta
      rw [if_pos rfl] at hcnt
      by_cases ha : t ∈ pre
      · rw [if_pos (by simpa using ha)]
        simp [ha]
      · rw [if_neg (by simpa using ha), ih (t :: pre)]
        constructor
        · rintro ⟨hmem, _⟩
          refine ⟨List.mem_cons_self t as, Or.inr ?_⟩
          have := (countEq_pos_iff as t).mpr hmem
          omega
        · rintro ⟨_, hpc | hcount⟩
          · exact absurd hpc ha
          · rw [hcnt] at hcount
            have hmem : t ∈ as := (countEq_pos_iff as t).mp (by omega)
            exact ⟨hmem, Or.inl (List.mem_cons_self t pre)⟩
    · have hstep : t ∈ (if decide (a ∈ pre) = true
          then a :: maskSelect as (duplicatedMaskAux (a :: pre) as)
          else maskSelect as (duplicatedMaskAux (a :: pre) as))
          ↔ t ∈ maskSelect as (duplicatedMaskAux (a :: pre) as) := by
        by_cases ha : a ∈ pre
        · rw [if_pos (by simpa using ha), List.mem_cons]
          constructor
          · rintro (rfl | h)
            · exact absurd rfl hta
            · exact h
          · exact Or.inr
        · rw [if_neg (by simpa using ha)]
      rw [hstep, ih (a :: pre)]
      have hmempre : t ∈ a :: pre ↔ t ∈ pre := by
        rw [List.mem_cons]
        constructor
        · rintro (rfl | h)
          · exact absurd rfl hta
          · exact h
        · exact Or.inr
      have hmemcons : t ∈ a :: as ↔ t ∈ as := by
        rw [List.mem_cons]
        constructor
        · rintro (rfl | h)
          · exact absurd rfl hta
          · exact h
        · exact Or.inr
      have hz : (if a = t then 1 else 0) = 0 := if_neg (fun h => hta h.symm)
      rw [hmempre, hmemcons, hcnt, hz, Nat.add_zero]

theorem mem_dup_values {β : Type} [DecidableEq β] (l : List β) (t : β) :
    t ∈ dedupFirst (maskSelect l (duplicatedMask l)) ↔ 2 ≤ countEq l t := by
  rw [mem_dedupFirst, duplicatedMask, mem_maskSelect_duplicatedAux]
  constructor
  · rintro ⟨_, hf | hc⟩
    · exact absurd hf (List.not_mem_nil t)
    · exact hc
  · intro hc
    exact ⟨(countEq_pos_iff l t).mp (by omega), Or.inr hc⟩

theorem dedupAux_eq_nil_iff {β : Type} [DecidableEq β] (l seen : List β) :
    dedupAux seen l = [] ↔ ∀ b ∈ l, b ∈ seen := by
  constructor
  · intro h b hb
    by_contra hbs
    have : b ∈ dedupAux seen l := (mem_dedupAux l seen b).mpr ⟨hb, hbs⟩
    rw [h] at this
    exact List.not_mem_nil b this
  · intro h
    cases hd : dedupAux seen l with
    | nil => rfl
    | cons c cs =>
      have hc : c ∈ dedupAux seen l := by rw [hd]; exact List.mem_cons_self c cs
      obtain ⟨hcl, hcs⟩ := (mem_dedupAux l seen c).mp hc
      exact absurd (h c hcl) hcs

/-- The tuples of non-null child rows absent from the parent: the
specification's notion of the rows that violate a foreign key. -/
def fkBadTuples {α : Type} [DecidableEq α] (xs ys : List (List (Option α))) :
    List (List (Option α)) :=
  xs.filter (fun t => !hasNull t && decide (t ∉ ys))

theorem fkInvalidMulti_select {α : Type} [DecidableEq α]
    (ys : List (List (Option α))) (xs pre seen : List (List (Option α)))
    (h : ∀ t, (!hasNull t && decide (t ∉ ys)) = true → (t ∈ pre ↔ t ∈ seen)) :
    maskSelect xs (fkInvalidMaskMulti ys pre xs)
      = dedupAux seen (fkBadTuples xs ys) := by
  induction xs generalizing pre seen with
  | nil => rfl
  | cons t ts ih =>
    rw [fkInvalidMaskMulti, maskSelect_cons, fkBadTuples, List.filter_cons]
    by_cases hbad : (!hasNull t && decide (t ∉ ys)) = true
    · have hys : t ∉ ys := of_decide_eq_true (Bool.and_elim_right hbad)
      have hnn : hasNull t = false := by
        have := Bool.and_elim_left hbad
        simpa using this
      rw [if_pos hbad]
      by_cases hpre : t ∈ pre
      · have hmask : (!(decide (t ∈ ys) || decide (t ∈ pre) || hasNull t)) = false := by
          simp [hpre]
        rw [hmask, if_neg (by simp)]
        have hseen : t ∈ seen := (h t hbad).mp hpre
        rw [dedupAux, if_pos hseen]
        refine ih (t :: pre) seen (fun u hu => ?_)
        rcases eq_or_ne u t with rfl | hut
        · simpa [hpre] using (h u hu)
        · rw [List.mem_cons]
          rw [h u hu]
          constructor
          · rintro (h' | h')
            · exact absurd h' hut
            · exact h'
          · exact Or.inr
      · have hmask : (!(decide (t ∈ ys) || decide (t ∈ pre) || hasNull t)) = true := by
          simp [hpre, hys, hnn]
        rw [hmask, if_pos rfl]
        have hseen : t ∉ seen := fun hs => hpre ((h t hbad).mpr hs)
        rw [dedupAux, if_neg hseen]
        congr 1
        refine ih (t :: pre) (t :: seen) (fun u hu => ?_)
        rw [List.mem_cons, List.mem_cons, h u hu]
    · have hmask : (!(decide (t ∈ ys) || decide (t ∈ pre) || hasNull t)) = false := by
        by_cases hys : t ∈ ys
        · simp [hys]
        · have hnn : hasNull t = true := by
            cases hhn : hasNull t
            · exact absurd (by simp [hhn, hys]) hbad
            · rfl
          simp [hnn]
      rw [hmask, if_neg (by simp), if_neg hbad]
      refine ih (t :: pre) seen (fun u hu => ?_)
      have hut : u ≠ t := fun he => hbad (he ▸ hu)
      rw [List.mem_cons, h u hu]
      constructor
      · rintro (h' | h')
        · exact absurd h' hut
        · exact h'
      · exact Or.inr

theorem fkInvalidMulti_select_nil {α : Type} [DecidableEq α]
    (ys xs : List (List (Option α))) :
    maskSelect xs (fkInvalidMaskMulti ys [] xs) = dedupFirst (fkBadTuples xs ys) :=
  fkInvalidMulti_select ys xs [] [] (fun _ _ => Iff.rfl)

theorem fkInvalidSingle_select {α : Type} [DecidableEq α]
    (ys xs : List (List (Option α))) :
    maskSelect xs (fkInvalidMaskSingle ys xs) = fkBadTuples xs ys := by
  rw [fkInvalidMaskSingle, maskSelect_map_filter, fkBadTuples]
  apply List.filter_congr
  intro t _
  cases h1 : decide (t ∈ ys) <;> cases h2 : hasNull t <;>
    simp [h1, h2, of_decide_eq_true, of_decide_eq_false]

theorem dedupFirst_idem {β : Type} [DecidableEq β] (l : List β) :
    dedupFirst (dedupFirst l) = dedupFirst l := by
  unfold dedupFirst
  apply dedupAux_eq_self
  · exact (dedupAux_nodup l []).1
  · intro b _
    exact List.not_mem_nil b

theorem dedupFirst_eq_nil_iff {β : Type} [DecidableEq β] (l : List β) :
    dedupFirst l = [] ↔ l = [] := by
  rw [dedupFirst, dedupAux_eq_nil_iff]
  constructor
  · intro h
    cases l with
    | nil => rfl
    | cons a as => exact absurd (h a (List.mem_cons_self a as)) (List.not_mem_nil a)
  · rintro rfl
    intro b hb
    exact absurd hb (List.not_mem_nil b)

/-! ## Claim theorems -/

/-- C1: `check_foreign_keys` (with no parent-constraint sub-check, as the
orchestrator calls it): for a descriptor whose parent resolves, a non-null
child key tuple is reported as an offending tuple iff no parent
reference-key tuple equals it component-wise; null-containing child tuples
are exempt; all failures are aggregated into one ForeignKeyError for the
descriptor listing the distinct offending tuples. -/
theorem claim_C1 {α : Type} [DecidableEq α] [FieldOps α]
    (child parent : Frame α) (references : List (String × Frame α)) (fk : FKDesc)
    (cidx pidx : List ℕ)
    (hres : (if fk.reference.resource = "" then some child
             else lookupRef references fk.reference.resource) = some parent)
    (hc : child.keyIdxs fk.fields = Except.ok cidx)
    (hp : parent.keyIdxs fk.reference.fields = Except.ok pidx)
    (hlen : fk.fields.length = fk.reference.fields.length) :
    check_foreign_keys child [fk] references none =
      Except.ok
        (if fkBadTuples (child.rows.map (projectRow cidx))
              (parent.rows.map (projectRow pidx)) = [] then []
         else [CheckError.foreignKeyE fk.reference.resource fk
            (dedupFirst (fkBadTuples (child.rows.map (projectRow cidx))
              (parent.rows.map (projectRow pidx))))])
    ∧ ∀ t, t ∈ dedupFirst (fkBadTuples (child.rows.map (projectRow cidx))
              (parent.rows.map (projectRow pidx)))
        ↔ (t ∈ child.rows.map (projectRow cidx) ∧ hasNull t = false
            ∧ t ∉ parent.rows.map (projectRow pidx)) := by
  set xs := child.rows.map (projectRow cidx) with hxs
  set ys := parent.rows.map (projectRow pidx) with hys
  constructor
  · show check_foreign_keys child [fk] references none = _
    unfold check_foreign_keys
    rw [hres]
    simp only [bind, Except.bind]
    rw [if_neg (by simp)]
    rw [hc, hp]
    by_cases hck : fk.fields.length = 1
    · have hplen : pidx.length = 1 := by
        have := mapExcept_ok_length _ _ _ hp
        omega
      obtain ⟨j, rfl⟩ : ∃ j, pidx = [j] := by
        cases pidx with
        | nil => simp at hplen
        | cons j rest =>
          cases rest with
          | nil => exact ⟨j, rfl⟩
          | cons b bs => simp at hplen
      dsimp only
      rw [if_pos hck]
      rw [show check_foreign_keys child ([] : List FKDesc) references none
          = Except.ok [] from rfl]
      dsimp only
      have hproj : parent.rows.map (fun r => [cellAt r j])
          = parent.rows.map (projectRow [j]) := rfl
      rw [hproj, fkInvalidSingle_select]
      by_cases hbad : fkBadTuples xs ys = []
      · rw [hxs, hys] at hbad ⊢
        simp [hbad]
      · rw [hxs, hys] at hbad ⊢
        simp [hbad]
    · dsimp only
      rw [if_neg hck]
      rw [if_neg (by omega)]
      rw [show check_foreign_keys child ([] : List FKDesc) references none
          = Except.ok [] from rfl]
      dsimp only
      rw [fkInvalidMulti_select_nil]
      by_cases hbad : fkBadTuples xs ys = []
      · rw [hxs, hys] at hbad ⊢
        simp [hbad, dedupFirst_eq_nil_iff]
      · rw [hxs, hys] at hbad ⊢
        simp [hbad, dedupFirst_eq_nil_iff, dedupFirst_idem]
  · intro t
    rw [mem_dedupFirst, fkBadTuples, List.mem_filter]
    constructor
    · rintro ⟨hmem, hcond⟩
      refine ⟨hmem, ?_, ?_⟩
      · have := Bool.and_elim_left hcond
        simpa using this
      · exact of_decide_eq_true (Bool.and_elim_right hcond)
    · rintro ⟨hmem, hnn, hys2⟩
      exact ⟨hmem, by simp [hnn, hys2]⟩

/-- Witness for C1 at a concrete child/parent pair. -/
theorem claim_C1_witness :
    check_foreign_keys (⟨0, ["a"], [[some (1 : ℤ)], [some 3], [none]]⟩ : Frame ℤ)
        [⟨["a"], ⟨"p", ["b"]⟩⟩] [("p", ⟨1, ["b"], [[some 1], [some 2]]⟩)] none
      = Except.ok [CheckError.foreignKeyE "p" ⟨["a"], ⟨"p", ["b"]⟩⟩ [[some 3]]] := by
  have h := claim_C1 (⟨0, ["a"], [[some (1 : ℤ)], [some 3], [none]]⟩ : Frame ℤ)
    ⟨1, ["b"], [[some 1], [some 2]]⟩ [("p", ⟨1, ["b"], [[some 1], [some 2]]⟩)]
    ⟨["a"], ⟨"p", ["b"]⟩⟩ [0] [0] rfl rfl rfl rfl
  rw [h.1]
  rfl

/-- The loop body of `check_unique_keys` for one key with resolved column
indices: at most one UniqueKeyError, listing the distinct duplicated key
tuples. -/
def uniqueKeyExpectedError {α : Type} [DecidableEq α] (df : Frame α)
    (key : List String) (idxs : List ℕ) : List (CheckError α) :=
  let tuples := df.rows.map (projectRow idxs)
  let flagged := maskSelect tuples (duplicatedMask tuples)
  if flagged = [] then [] else [.uniqueKeyE key (dedupFirst flagged)]

/-- The expected output of `check_unique_keys` with `skip_single = false`:
the per-key errors in key order (keys whose columns are missing raise
instead and produce nothing here). -/
def check_unique_keys_expected {α : Type} [DecidableEq α] (df : Frame α) :
    List (List String) → List (CheckError α)
  | [] => []
  | k :: rest =>
    (match df.keyIdxs k with
      | Except.ok idxs => uniqueKeyExpectedError df k idxs
      | Except.error _ => []) ++ check_unique_keys_expected df rest

/-- C3: `check_unique_keys` flags a row as duplicate iff an earlier row (in
table order) has equal values in all key columns (nulls comparing equal, so
two all-null tuples are duplicates), and emits at most one UniqueKeyError
per key, present exactly when duplicates exist, listing the distinct
duplicated key tuples (those occurring at least twice). -/
theorem claim_C3 {α : Type} [DecidableEq α] (df : Frame α)
    (keys : List (List String))
    (h : ∀ k ∈ keys, ∃ idxs, df.keyIdxs k = Except.ok idxs) :
    check_unique_keys df keys false = Except.ok (check_unique_keys_expected df keys)
    ∧ (∀ k idxs, df.keyIdxs k = Except.ok idxs →
        (∀ i t, (df.rows.map (projectRow idxs)).get? i = some t →
          ((duplicatedMask (df.rows.map (projectRow idxs))).get? i = some true
            ↔ ∃ j < i, (df.rows.map (projectRow idxs)).get? j = some t))
        ∧ (∀ vs, uniqueKeyExpectedError df k idxs = [CheckError.uniqueKeyE k vs] →
            ∀ t, t ∈ vs ↔ 2 ≤ countEq (df.rows.map (projectRow idxs)) t)
        ∧ (uniqueKeyExpectedError df k idxs = []
            ↔ ∀ t, countEq (df.rows.map (projectRow idxs)) t ≤ 1)) := by
  constructor
  · induction keys with
    | nil => rfl
    | cons k rest ih =>
      obtain ⟨idxs, hidx⟩ := h k (List.mem_cons_self k rest)
      have hrest := ih (fun k' hk' => h k' (List.mem_cons_of_mem _ hk'))
      by_cases hflag : maskSelect (df.rows.map (projectRow idxs))
          (duplicatedMask (df.rows.map (projectRow idxs))) = []
      · simp [check_unique_keys, check_unique_keys_expected, uniqueKeyExpectedError,
          bind, Except.bind, hrest, hidx, hflag]
      · simp [check_unique_keys, check_unique_keys_expected, uniqueKeyExpectedError,
          bind, Except.bind, hrest, hidx, hflag]
  · intro k idxs _
    refine ⟨?_, ?_, ?_⟩
    · intro i t ht
      rw [duplicatedMask_get? _ i t ht]
      constructor
      · intro h'
        have := Option.some.inj h'
        exact of_decide_eq_true this
      · intro h'
        rw [decide_eq_true h']
    · intro vs hvs t
      unfold uniqueKeyExpectedError at hvs
      by_cases hflag : maskSelect (df.rows.map (projectRow idxs))
          (duplicatedMask (df.rows.map (projectRow idxs))) = []
      · rw [if_pos hflag] at hvs
        cases hvs
      · rw [if_neg hflag] at hvs
        have := (List.cons.injEq _ _ _ _).mp hvs
        obtain ⟨he, -⟩ := this
        have hvs' : vs = dedupFirst (maskSelect (df.rows.map (projectRow idxs))
            (duplicatedMask (df.rows.map (projectRow idxs)))) := by
          cases he
          rfl
        rw [hvs']
        exact mem_dup_values _ t
    · unfold uniqueKeyExpectedError
      by_cases hflag : maskSelect (df.rows.map (projectRow idxs))
          (duplicatedMask (df.rows.map (projectRow idxs))) = []
      · rw [if_pos hflag]
        constructor
        · intro _ t
          by_contra hc
          have h2 : 2 ≤ countEq (df.rows.map (projectRow idxs)) t := by omega
          have := (mem_dup_values (df.rows.map (projectRow idxs)) t).mpr h2
          rw [dedupFirst] at this
          rw [hflag] at this
          exact List.not_mem_nil t this
        · intro _
          rfl
      · rw [if_neg hflag]
        constructor
        · intro hc
          cases hc
        · intro hall
          exfalso
          apply hflag
          cases hsel : maskSelect (df.rows.map (projectRow idxs))
              (duplicatedMask (df.rows.map (projectRow idxs))) with
          | nil => rfl
          | cons c cs =>
            have hcmem : c ∈ dedupFirst (maskSelect (df.rows.map (projectRow idxs))
                (duplicatedMask (df.rows.map (projectRow idxs)))) := by
              rw [mem_dedupFirst, hsel]
              exact List.mem_cons_self c cs
            have := (mem_dup_values _ c).mp hcmem
            have := hall c
            omega

/-- Witness for C3 at a concrete table with one duplicated key value. -/
theorem claim_C3_witness :
    check_unique_keys (⟨0, ["a"], [[some (1 : ℤ)], [some 1], [some 2]]⟩ : Frame ℤ)
        [["a"]] false
      = Except.ok [CheckError.uniqueKeyE ["a"] [[some 1]]] := by
  have h := (claim_C3 (⟨0, ["a"], [[some (1 : ℤ)], [some 1], [some 2]]⟩ : Frame ℤ)
    [["a"]]
    (fun k hk => ⟨[0], by
      rw [List.mem_singleton] at hk
      subst hk
      rfl⟩)).1
  rw [h]
  rfl

theorem mem_invalidNumberRaws (x : List (Option String)) (s : String) :
    s ∈ invalidNumberRaws x ↔ some s ∈ x ∧ pyFloatOfString s = none := by
  unfold invalidNumberRaws
  rw [List.mem_filterMap]
  constructor
  · rintro ⟨a, ha, hfa⟩
    cases a with
    | none => cases hfa
    | some s' =>
      dsimp only at hfa
      by_cases hn : (pyFloatOfString s').isNone
      · rw [if_pos hn] at hfa
        cases hfa
        exact ⟨ha, Option.isNone_iff_eq_none.mp hn⟩
      · rw [if_neg hn] at hfa
        cases hfa
  · rintro ⟨hmem, hnone⟩
    exact ⟨some s, hmem, by simp [hnone]⟩

/-- C2: `parse_number` with default settings parses "1.23" to 1.23, "-1e2"
to -100, "inf"/"Infinity" to +Inf and "nan" to NaN, and for a column with
invalid values returns exactly one type error listing the distinct invalid
raw values in order of first appearance; valid values (including ones that
parse to NaN) are never listed. -/
theorem claim_C2 :
    parse_number [some "1.23", some "-1e2", some "inf", some "Infinity", some "nan", none]
      = ParseResult.ok [.fin 123 (-2), .fin (-1) 2, .inf false, .inf false, .nan, .nan]
    ∧ (PyF.fin 123 (-2)).val = some ((123 : ℚ) / 100)
    ∧ (PyF.fin (-1) 2).val = some ((-100 : ℚ))
    ∧ parse_number [some "NA", some "nan", some "++1", some "1e", some "NA", none]
      = ParseResult.err ["NA", "++1", "1e"]
    ∧ (∀ x : List (Option String),
        (∀ vs, parse_number x = ParseResult.err vs →
          vs = dedupFirst (invalidNumberRaws x)
            ∧ (∀ s, s ∈ vs ↔ s ∈ invalidNumberRaws x))
        ∧ ((∃ col, parse_number x = ParseResult.ok col) ↔ invalidNumberRaws x = []))
    ∧ (∀ (x : List (Option String)) (s : String),
        s ∈ invalidNumberRaws x ↔ some s ∈ x ∧ pyFloatOfString s = none) := by
  refine ⟨by rfl, ?_, ?_, by rfl, parse_number_err_characterisation, mem_invalidNumberRaws⟩
  · show some ((123 : ℚ) * 10 ^ (-2 : ℤ)) = some ((123 : ℚ) / 100)
    norm_num
  · show some ((-1 : ℚ) * 10 ^ (2 : ℤ)) = some ((-100 : ℚ))
    norm_num

/-- Witness for C2: the error value list at a concrete column. -/
theorem claim_C2_witness :
    ["NA"] = dedupFirst (invalidNumberRaws [some "NA", some "1.23"])
    ∧ "NA" ∈ invalidNumberRaws [some "NA", some "1.23"] := by
  have h := (claim_C2.2.2.2.2.1 [some "NA", some "1.23"]).1 ["NA"] (by rfl)
  exact ⟨h.1, (h.2 "NA").mp (by decide)⟩

/-- The constraint-name attribute of an error, when it has one. -/
def constraintNameOf {α : Type} : CheckError α → Option String
  | .constraintE _ n _ _ => some n
  | _ => none

/-- C9 (failing input): `check_field_constraints` evaluates the constraint
kinds in source order and produces at most one error per kind, but the
maxLength branch labels its error "minLength" (check.py line 117), so no
error ever carries the constraint name "maxLength". -/
theorem claim_C9 :
    check_field_constraints [none, some "a", some "a", some "abcd"]
        ({ required := true, unique := true, minLength := some 2,
           maxLength := some 3 } : Constraints String)
        { name := "f", ftype := "string" }
      = [.constraintE "f" "required" (.cbool true) [none],
         .constraintE "f" "unique" (.cbool true) [some "a"],
         .constraintE "f" "minLength" (.cnat 2) [some "a"],
         .constraintE "f" "minLength" (.cnat 3) [some "abcd"]]
    ∧ (check_field_constraints [none, some "a", some "a", some "abcd"]
        ({ required := true, unique := true, minLength := some 2,
           maxLength := some 3 } : Constraints String)
        { name := "f", ftype := "string" }).filter
          (fun e => constraintNameOf e = some "maxLength") = [] := ⟨rfl, rfl⟩

/-- C4 (failing input): with a non-null `constraint` and a parent table that
is a different object than the child, a failing parent-side key sub-check
makes `check_foreign_keys` raise a TypeError — `for e in enumerate(perrors)`
binds `e` to an `(index, error)` tuple, `"fieldName" in e` is therefore
false, and the else branch subscripts the tuple with a string — instead of
re-surfacing the parent errors. -/
theorem claim_C4 :
    check_foreign_keys (⟨0, ["a"], [[some (1 : ℤ)]]⟩ : Frame ℤ)
        [⟨["a"], ⟨"p", ["b"]⟩⟩] [("p", ⟨1, ["b"], [[some 5], [some 5]]⟩)]
        (some "primarykey")
      = Except.error PyErr.typeError
    ∧ check_foreign_keys (⟨0, ["a"], [[some (1 : ℤ)]]⟩ : Frame ℤ)
        [⟨["a"], ⟨"p", ["b"]⟩⟩] [("p", ⟨1, ["b"], [[some 5], [some 5]]⟩)]
        (some "uniquekey")
      = Except.error PyErr.typeError := ⟨rfl, rfl⟩

/-! ## `parse_field` dispatch (parse.py lines 60-65) -/

/-- The module-level names of parse.py that a `globals().get(f"parse_{type}")`
lookup can find: every top-level function whose name starts with `parse_`. -/
def parse_module_globals : List String :=
  ["parse_table", "parse_field", "parse_field_constraint", "parse_string",
   "parse_number", "parse_integer", "parse_boolean", "parse_date",
   "parse_datetime", "parse_year", "parse_geopoint"]

/-- The field types enumerated by the specification. -/
def supported_field_types : List String :=
  ["string", "number", "integer", "boolean", "date", "datetime", "year",
   "geopoint"]

/-- The type names for which the dispatch finds a function and therefore
does not raise. -/
def no_raise_field_types : List String :=
  ["table", "field", "field_constraint", "string", "number", "integer",
   "boolean", "date", "datetime", "year", "geopoint"]

/-- Whether `parse_field(x, type=ftype)` raises NotImplementedError:
`parser = globals().get(f"parse_{type}"); if not parser: raise ...`. -/
def parse_field_raises (ftype : String) : Bool :=
  decide (("parse_" ++ ftype) ∉ parse_module_globals)

theorem parse_name_inj (t u : String) : "parse_" ++ t = "parse_" ++ u ↔ t = u := by
  constructor
  · intro h
    have hd := congrArg String.data h
    simp only [String.data_append] at hd
    have h2 := List.append_cancel_left hd
    cases t
    cases u
    exact congrArg String.mk h2
  · rintro rfl
    rfl

/-- C6 (failing input): `parse_field` raises for a declared type exactly
when no module function `parse_<type>` exists; because `globals()` also
holds `parse_table`, `parse_field` and `parse_field_constraint`, the
unsupported type names "table", "field" and "field_constraint" do NOT raise
(for example, `type="field"` recurses into `parse_field` with the default
type "string" and silently returns the column), contradicting the claim
that every name outside the supported set raises. -/
theorem claim_C6 :
    ("field" ∉ supported_field_types ∧ parse_field_raises "field" = false)
    ∧ ("table" ∉ supported_field_types ∧ parse_field_raises "table" = false)
    ∧ ("field_constraint" ∉ supported_field_types
        ∧ parse_field_raises "field_constraint" = false)
    ∧ (∀ t ∈ supported_field_types, parse_field_raises t = false)
    ∧ (∀ t : String, parse_field_raises t = false ↔ t ∈ no_raise_field_types) := by
  refine ⟨⟨by decide, by rfl⟩, ⟨by decide, by rfl⟩, ⟨by decide, by rfl⟩, by decide, ?_⟩
  intro t
  have hmap : parse_module_globals = no_raise_field_types.map (fun u => "parse_" ++ u) := by
    rfl
  rw [parse_field_raises, hmap]
  rw [decide_eq_false_iff_not, not_not, List.mem_map]
  constructor
  · rintro ⟨u, hu, he⟩
    rw [parse_name_inj] at he
    exact he ▸ hu
  · intro ht
    exact ⟨t, ht, rfl⟩

/-- Witness for C6: a supported name does not raise; a genuinely unknown
name does. -/
theorem claim_C6_witness :
    parse_field_raises "field" = false ∧ parse_field_raises "fraction" = true := by
  refine ⟨claim_C6.1.2, ?_⟩
  cases hr : parse_field_raises "fraction" with
  | false => exact absurd ((claim_C6.2.2.2.2 "fraction").mp hr) (by decide)
  | true => rfl

theorem mem_invalidDateRaws (x : List (Option String)) (s : String) :
    s ∈ invalidDateRaws x ↔ some s ∈ x ∧ pdToDatetimeDefault s = none := by
  unfold invalidDateRaws
  rw [List.mem_filterMap]
  constructor
  · rintro ⟨a, ha, hfa⟩
    cases a with
    | none => cases hfa
    | some s' =>
      dsimp only at hfa
      by_cases hn : (pdToDatetimeDefault s').isNone
      · rw [if_pos hn] at hfa
        cases hfa
        exact ⟨ha, Option.isNone_iff_eq_none.mp hn⟩
      · rw [if_neg hn] at hfa
        cases hfa
  · rintro ⟨hmem, hnone⟩
    exact ⟨some s, hmem, by simp [hnone]⟩

theorem parse_date_err_characterisation (x : List (Option String)) :
    (∀ vs, parse_date x = ParseResult.err vs →
      vs = dedupFirst (invalidDateRaws x) ∧ (∀ s, s ∈ vs ↔ s ∈ invalidDateRaws x))
    ∧ ((∃ col, parse_date x = ParseResult.ok col) ↔ invalidDateRaws x = []) := by
  constructor
  · intro vs hvs
    unfold parse_date at hvs
    by_cases he : invalidDateRaws x = []
    · simp [he] at hvs
    · rw [if_neg he] at hvs
      cases hvs
      exact ⟨rfl, fun s => mem_dedupFirst _ s⟩
  · unfold parse_date
    by_cases he : invalidDateRaws x = []
    · rw [if_pos he]
      exact iff_of_true ⟨_, rfl⟩ he
    · rw [if_neg he]
      constructor
      · rintro ⟨col, h⟩
        cases h
      · intro h
        exact absurd h he

/-- C7 counterexample: "1500-01-01" is a valid calendar date under
`%Y-%m-%d`, yet `parse_date` reports it invalid (it is below the
`pd.Timestamp` lower bound, so `errors="coerce"` turns it into `NaT`). -/
theorem claim_C7_counterexample :
    specValidDateDefault "1500-01-01" = true
    ∧ parse_date [some "1500-01-01"] = ParseResult.err ["1500-01-01"] := ⟨rfl, rfl⟩

/-- C7 (amended): with `format="default"`, a non-null value is reported
invalid iff it fails to produce a valid calendar date under `%Y-%m-%d` OR
the date falls outside the `pd.Timestamp` range; within the range the
claimed equivalence holds, and the claimed examples behave as stated. -/
theorem claim_C7 :
    parse_date [some "2020-12-31"] = ParseResult.ok [some ⟨2020, 12, 31⟩]
    ∧ parse_date [some "2020-02-30", some "2020-13-01"]
        = ParseResult.err ["2020-02-30", "2020-13-01"]
    ∧ (∀ s d, strptimeYmdDefault s = some d →
        (pdToDatetimeDefault s = some d ↔ inTimestampBounds d = true)
        ∧ (pdToDatetimeDefault s = none ↔ inTimestampBounds d = false))
    ∧ (∀ s, strptimeYmdDefault s = none → pdToDatetimeDefault s = none)
    ∧ (∀ s, specValidDateDefault s = false → pdToDatetimeDefault s = none)
    ∧ (∀ x : List (Option String),
        (∀ vs, parse_date x = ParseResult.err vs →
          vs = dedupFirst (invalidDateRaws x) ∧ (∀ s, s ∈ vs ↔ s ∈ invalidDateRaws x))
        ∧ ((∃ col, parse_date x = ParseResult.ok col) ↔ invalidDateRaws x = []))
    ∧ (∀ (x : List (Option String)) (s : String),
        s ∈ invalidDateRaws x ↔ some s ∈ x ∧ pdToDatetimeDefault s = none) := by
  refine ⟨by rfl, by rfl, ?_, ?_, ?_, parse_date_err_characterisation,
    mem_invalidDateRaws⟩
  · intro s d h
    unfold pdToDatetimeDefault
    rw [h]
    dsimp only
    by_cases hb : inTimestampBounds d
    · rw [if_pos hb]
      constructor
      · exact iff_of_true rfl hb
      · constructor
        · intro h'
          cases h'
        · intro h'
          rw [hb] at h'
          cases h'
    · rw [if_neg hb]
      constructor
      · constructor
        · intro h'
          cases h'
        · intro h'
          exact absurd h' hb
      · constructor
        · intro _
          cases hbb : inTimestampBounds d
          · rfl
          · exact absurd hbb hb
        · intro _
          rfl
  · intro s h
    unfold pdToDatetimeDefault
    rw [h]
  · intro s h
    unfold specValidDateDefault at h
    unfold pdToDatetimeDefault
    cases hs : strptimeYmdDefault s with
    | none => rfl
    | some d => rw [hs] at h; cases h

/-- Witness for C7: the theorem applied below the Timestamp lower bound. -/
theorem claim_C7_witness : pdToDatetimeDefault "1500-01-01" = none := by
  have h := (claim_C7.2.2.1 "1500-01-01" ⟨1500, 1, 1⟩ (by rfl)).2
  exact h.mpr (by rfl)

theorem splitOnCharAux_no_sep (sep : Char) (cur l : List Char) (h : sep ∉ l) :
    splitOnCharAux sep cur l = [cur.reverse ++ l] := by
  induction l generalizing cur with
  | nil => simp [splitOnCharAux]
  | cons c rest ih =>
    have hc : c ≠ sep := fun he => h (he ▸ List.mem_cons_self c rest)
    rw [splitOnCharAux, if_neg hc, ih (c :: cur) (fun hm => h (List.mem_cons_of_mem c hm))]
    simp

theorem parsePat_no_alt (p : String) (h : '|' ∉ p.data) :
    parsePat p = [p.data.map atomOf] := by
  rw [parsePat, splitOnChar, splitOnCharAux_no_sep _ _ _ h]
  simp

theorem wrapped_data (p : String) :
    ("^" ++ p ++ "$").data = '^' :: (p.data ++ ['$']) := by
  have h1 : ("^" ++ p ++ "$").data = ("^" ++ p).data ++ "$".data := String.data_append _ _
  have h2 : ("^" ++ p).data = "^".data ++ p.data := String.data_append _ _
  rw [h1, h2]
  simp

theorem mAt_append_aend (as : List RAtom) (hch : ∀ a ∈ as, ∃ c, a = RAtom.ch c)
    (pos : ℕ) (l : List Char) :
    mAt (as ++ [RAtom.aend]) pos l = mFull as pos l := by
  induction as generalizing pos l with
  | nil =>
    cases l with
    | nil => rfl
    | cons x rest => simp [mAt, mFull]
  | cons a as ih =>
    obtain ⟨c, rfl⟩ := hch a (List.mem_cons_self a as)
    cases l with
    | nil => rfl
    | cons x rest =>
      rw [List.cons_append]
      show (decide (x = c) && mAt (as ++ [RAtom.aend]) (pos + 1) rest)
        = (decide (x = c) && mFull as (pos + 1) rest)
      rw [ih (fun a ha => hch a (List.mem_cons_of_mem _ ha)) (pos + 1) rest]

/-- C8 counterexample: for the pattern `a|b` and value `ax`, the whole
value does not match the pattern anchored at both ends, yet the code
(`x.str.match("^" + pattern + "$")`, whose alternation escapes the string-
level anchors) reports no violation. -/
theorem claim_C8_counterexample :
    specFullMatch (parsePat "a|b") "ax" = false
    ∧ check_field_constraints [some "ax"]
        ({ pattern := some "a|b" } : Constraints String)
        { name := "f", ftype := "string" } = []
    ∧ reMatch (parsePat ("^" ++ "a|b" ++ "$")) "ax" = true := ⟨rfl, rfl, rfl⟩

/-- C8 (amended): for string-typed fields a non-null value is reported as
violating iff `re.match("^" + pattern + "$")` fails — which coincides with
a whole-value anchored match exactly when the pattern has no top-level
alternation (the counterexample `a|b` on "ax" forces this caveat) — and
for non-string field types the pattern constraint produces no error. -/
theorem claim_C8 (p : String) (x : List (Option String)) (name fty : String) :
    (fty = "string" → p ≠ "" →
      check_field_constraints x ({ pattern := some p } : Constraints String)
          { name := name, ftype := fty }
        = (if (x.filterMap id).filter
              (fun v => !reMatch (parsePat ("^" ++ p ++ "$")) v) ≠ []
           then [CheckError.constraintE name "pattern" (CVal.cstr p)
                  ((dedupFirst ((x.filterMap id).filter
                    (fun v => !reMatch (parsePat ("^" ++ p ++ "$")) v))).map some)]
           else []))
    ∧ (fty ≠ "string" →
        check_field_constraints x ({ pattern := some p } : Constraints String)
          { name := name, ftype := fty } = [])
    ∧ ('|' ∉ p.data → '^' ∉ p.data → '$' ∉ p.data →
        ∀ v : String, reMatch (parsePat ("^" ++ p ++ "$")) v
          = specFullMatch (parsePat p) v) := by
  refine ⟨?_, ?_, ?_⟩
  · intro hty hp
    subst hty
    simp only [check_field_constraints]
    rw [if_neg (by simp), if_neg (by simp)]
    simp only [FieldOps.matchVal]
    rw [if_pos (by simp [hp])]
    simp
  · intro hty
    simp only [check_field_constraints]
    rw [if_neg (by simp), if_neg (by simp)]
    rw [if_neg (by simp [hty])]
    simp
  · intro halt hstart hend v
    have hnoalt : '|' ∉ ("^" ++ p ++ "$").data := by
      rw [wrapped_data]
      intro hm
      rcases List.mem_cons.mp hm with h | h
      · cases h
      · rcases List.mem_append.mp h with h | h
        · exact halt h
        · rcases List.mem_cons.mp h with h | h
          · cases h
          · exact absurd h (List.not_mem_nil _)
    have hch : ∀ a ∈ p.data.map atomOf, ∃ c, a = RAtom.ch c := by
      intro a ha
      obtain ⟨c, hc, rfl⟩ := List.mem_map.mp ha
      refine ⟨c, ?_⟩
      have h1 : c ≠ '^' := by
        intro he
        subst he
        exact hstart hc
      have h2 : c ≠ '$' := by
        intro he
        subst he
        exact hend hc
      unfold atomOf
      rw [if_neg h1, if_neg h2]
    have hbr : parsePat ("^" ++ p ++ "$")
        = [RAtom.astart :: (p.data.map atomOf ++ [RAtom.aend])] := by
      rw [parsePat_no_alt _ hnoalt, wrapped_data]
      rw [List.map_cons, List.map_append]
      rfl
    rw [hbr, parsePat_no_alt _ halt]
    show (mAt (RAtom.astart :: (p.data.map atomOf ++ [RAtom.aend])) 0 v.data || false)
      = (mFull (p.data.map atomOf) 0 v.data || false)
    rw [Bool.or_false, Bool.or_false]
    rw [show mAt (RAtom.astart :: (p.data.map atomOf ++ [RAtom.aend])) 0 v.data
        = (decide ((0 : ℕ) = 0) && mAt (p.data.map atomOf ++ [RAtom.aend]) 0 v.data)
        from rfl]
    rw [mAt_append_aend _ hch 0 v.data]
    simp

/-- Witness for C8: the theorem applied at a non-string field and at an
alternation-free pattern. -/
theorem claim_C8_witness :
    check_field_constraints ([some "1"] : List (Option String))
        ({ pattern := some "a" } : Constraints String)
        { name := "f", ftype := "integer" } = []
    ∧ reMatch (parsePat ("^" ++ "ab" ++ "$")) "ab" = specFullMatch (parsePat "ab") "ab" := by
  refine ⟨(claim_C8 "a" [some "1"] "f" "integer").2.1 (by decide), ?_⟩
  exact (claim_C8 "ab" [] "f" "string").2.2 (by decide) (by decide) (by decide) "ab"

/-- Whether an error is a primary-key error. -/
def isPrimaryKeyErr {α : Type} : CheckError α → Bool
  | .primaryKeyE _ _ => true
  | _ => false

/-- C5 counterexample: for the claimed end-to-end scenario the single error
produced is a unique-constraint error, not a primary-key error — `validate`
pops a single-field `primaryKey` and rewrites it into per-field
`required`/`unique` constraints before any check runs. -/
theorem claim_C5_counterexample :
    validate_resource
        { fields := [⟨"id", "integer", {}⟩], primaryKey := some ["id"] }
        ⟨0, ["id"], [[some "1"], [some "2"], [some "2"]]⟩
      = Except.ok [CheckError.constraintE "id" "unique" (CVal.cbool true)
          [some (Val.vint 2)]]
    ∧ isPrimaryKeyErr (CheckError.constraintE "id" "unique" (CVal.cbool true)
        [some (Val.vint 2)] : CheckError Val) = false := ⟨rfl, rfl⟩

/-- C5 (amended): the scenario produces exactly one error; it is the
unique-constraint error on field `id` listing the duplicate typed value 2
(the single-field primaryKey having been rewritten into `required` and
`unique` field constraints); no required-constraint error and no
primary-key error is produced. -/
theorem claim_C5 :
    validate_resource
        { fields := [⟨"id", "integer", {}⟩], primaryKey := some ["id"] }
        ⟨0, ["id"], [[some "1"], [some "2"], [some "2"]]⟩
      = Except.ok [CheckError.constraintE "id" "unique" (CVal.cbool true)
          [some (Val.vint 2)]]
    ∧ ([CheckError.constraintE "id" "unique" (CVal.cbool true)
          [some (Val.vint 2)]] : List (CheckError Val)).length = 1
    ∧ ([CheckError.constraintE "id" "unique" (CVal.cbool true)
          [some (Val.vint 2)]] : List (CheckError Val)).filter
        (fun e => constraintNameOf e = some "required") = []
    ∧ ([CheckError.constraintE "id" "unique" (CVal.cbool true)
          [some (Val.vint 2)]] : List (CheckError Val)).filter isPrimaryKeyErr
        = [] := ⟨rfl, rfl, rfl, rfl⟩

/-! ## Idempotence and purity of the checks (C10)

None of the check functions mutates its inputs: every pandas operation they
use (`isna`, `duplicated`, `dropna`, `str.len`, `str.match`, `isin`,
`concat`, `set_axis`, boolean masking, `drop_duplicates`) returns a new
object, and the local rebinding `x = x.dropna()` does not affect the
caller's column. The `_run` wrappers return the check result together with
the data as the source leaves it. -/

/-- Wrapper: `check_field_constraints` and the column it leaves behind. -/
def check_field_constraints_run {α : Type} [DecidableEq α] [FieldOps α]
    (x : List (Option α)) (c : Constraints α) (field : FieldDesc) :
    List (CheckError α) × List (Option α) :=
  (check_field_constraints x c field, x)

/-- Wrapper: `check_primary_key` and the frame it leaves behind. -/
def check_primary_key_run {α : Type} [DecidableEq α] [FieldOps α] (df : Frame α)
    (primaryKey : List String) (skip_required skip_single : Bool) :
    Except PyErr (List (CheckError α)) × Frame α :=
  (check_primary_key df primaryKey skip_required skip_single, df)

/-- Wrapper: `check_unique_keys` and the frame it leaves behind. -/
def check_unique_keys_run {α : Type} [DecidableEq α] (df : Frame α)
    (uniqueKeys : List (List String)) (skip_single : Bool) :
    Except PyErr (List (CheckError α)) × Frame α :=
  (check_unique_keys df uniqueKeys skip_single, df)

/-- Wrapper: `check_foreign_keys` and the child frame and table map it leaves
behind. -/
def check_foreign_keys_run {α : Type} [DecidableEq α] [FieldOps α]
    (child : Frame α) (foreignKeys : List FKDesc)
    (references : List (String × Frame α)) (constraint : Option String) :
    Except PyErr (List (CheckError α)) × Frame α × List (String × Frame α) :=
  (check_foreign_keys child foreignKeys references constraint, child, references)

/-- C10: every check leaves the typed table and the resolved-tables map
unchanged, and re-running it on what the first run left behind yields the
same error list. -/
theorem claim_C10 {α : Type} [DecidableEq α] [FieldOps α]
    (x : List (Option α)) (c : Constraints α) (field : FieldDesc) (df : Frame α)
    (primaryKey : List String) (skip_required skip_single : Bool)
    (uniqueKeys : List (List String)) (foreignKeys : List FKDesc)
    (references : List (String × Frame α)) (constraint : Option String) :
    ((check_field_constraints_run x c field).2 = x
      ∧ (check_field_constraints_run (check_field_constraints_run x c field).2
          c field).1 = (check_field_constraints_run x c field).1)
    ∧ ((check_primary_key_run df primaryKey skip_required skip_single).2 = df
      ∧ (check_primary_key_run
          (check_primary_key_run df primaryKey skip_required skip_single).2
          primaryKey skip_required skip_single).1
        = (check_primary_key_run df primaryKey skip_required skip_single).1)
    ∧ ((check_unique_keys_run df uniqueKeys skip_single).2 = df
      ∧ (check_unique_keys_run (check_unique_keys_run df uniqueKeys skip_single).2
          uniqueKeys skip_single).1
        = (check_unique_keys_run df uniqueKeys skip_single).1)
    ∧ ((check_foreign_keys_run df foreignKeys references constraint).2.1 = df
      ∧ (check_foreign_keys_run df foreignKeys references constraint).2.2
          = references
      ∧ (check_foreign_keys_run
          (check_foreign_keys_run df foreignKeys references constraint).2.1
          foreignKeys
          (check_foreign_keys_run df foreignKeys references constraint).2.2
          constraint).1
        = (check_foreign_keys_run df foreignKeys references constraint).1) :=
  ⟨⟨rfl, rfl⟩, ⟨rfl, rfl⟩, ⟨rfl, rfl⟩, ⟨rfl, rfl, rfl⟩⟩

/-- Witness for C10 at a concrete table and schema. -/
theorem claim_C10_witness :
    (check_unique_keys_run (⟨0, ["a"], [[some (1 : ℤ)], [some 1]]⟩ : Frame ℤ)
        [["a"]] false).2 = ⟨0, ["a"], [[some 1], [some 1]]⟩
    ∧ (check_unique_keys_run
        (check_unique_keys_run (⟨0, ["a"], [[some (1 : ℤ)], [some 1]]⟩ : Frame ℤ)
          [["a"]] false).2 [["a"]] false).1
      = (check_unique_keys_run (⟨0, ["a"], [[some (1 : ℤ)], [some 1]]⟩ : Frame ℤ)
          [["a"]] false).1 := by
  have h := claim_C10 ([] : List (Option ℤ)) {} {}
    (⟨0, ["a"], [[some 1], [some 1]]⟩ : Frame ℤ) [] false false [["a"]] [] [] none
  exact ⟨h.2.2.1.1, h.2.2.1.2⟩

end GoodtablesPandas
